import Mathlib

/-!
Verification of the gesture smoothing, frame dispatch scheduling and debounced
progress persistence logic of the motion-based flashcard application.

The definitions below are shallow embeddings of the TypeScript source:
the temporal smoother and majority vote from the camera feed component,
the RAF frame dispatch scheduler, the debounced localStorage write queue
and the progress/sensitivity loaders.  Machine time (performance.now and
setTimeout delays, in milliseconds) is modelled by rational numbers; the
external JSON library boundary (JSON.parse / JSON.stringify) is modelled
by a stored-string type that records whether a string parses and, if so,
to which JSON tree.
-/

/-- Gesture enumeration from gestureTypes: the four instantaneous gesture
values REST, NEXT, PREV, SELECT. -/
inductive Gesture where
  | REST
  | NEXT
  | PREV
  | SELECT
deriving DecidableEq, Repr

open Gesture

/-- Fixed enumeration order of the gesture values, the insertion order of the
counts record literal in computeMajorityGesture (REST, NEXT, PREV, SELECT),
which is the iteration order of Object.entries over it. -/
def gestureEnum : List Gesture := [REST, NEXT, PREV, SELECT]

/-- Core (uncached) computation of computeMajorityGesture: count the
occurrences of each of the four enumerated gestures in the history, then scan
the entries in enumeration order keeping the first entry whose count strictly
exceeds the running maximum (initialised to REST with count 0). -/
def computeMajorityGestureUncached (history : List Gesture) : Option Gesture :=
  if history = [] then none
  else
    let counts := gestureEnum.map fun g => (g, history.count g)
    some (counts.foldl (fun acc p => if p.2 > acc.2 then p else acc) (REST, 0)).1

/-- Maximum occurrence count over the four enumerated gestures. -/
def maxGestureCount (history : List Gesture) : Nat :=
  (gestureEnum.map fun g => history.count g).foldl max 0

/-- Specification-side majority pick, written from the words of the spec:
the value with the highest count wins, and on a tie the first enumerated
value (in the order REST, NEXT, PREV, SELECT) holding the maximum wins. -/
def specFirstMaxGesture (history : List Gesture) : Option Gesture :=
  if history.count REST = maxGestureCount history then some REST
  else if history.count NEXT = maxGestureCount history then some NEXT
  else if history.count PREV = maxGestureCount history then some PREV
  else if history.count SELECT = maxGestureCount history then some SELECT
  else none

set_option maxHeartbeats 1000000 in
lemma majority_fold_pick (cR cN cP cS M : Nat)
    (hR : cR ≤ M) (hN : cN ≤ M) (hP : cP ≤ M) (hS : cS ≤ M)
    (hd : cR = M ∨ cN = M ∨ cP = M ∨ cS = M) :
    some ([(REST, cR), (NEXT, cN), (PREV, cP), (SELECT, cS)].foldl
        (fun acc p => if p.2 > acc.2 then p else acc) (REST, 0)).1 =
      (if cR = M then some REST
        else if cN = M then some NEXT
        else if cP = M then some PREV
        else if cS = M then some SELECT
        else none) := by
  simp only [List.foldl]
  split_ifs <;> first | rfl | (exfalso; omega)

lemma maxGestureCount_eq (h : List Gesture) :
    maxGestureCount h =
      max (max (max (h.count REST) (h.count NEXT)) (h.count PREV)) (h.count SELECT) := by
  simp [maxGestureCount, gestureEnum]

lemma count_le_maxGestureCount (h : List Gesture) (g : Gesture) :
    h.count g ≤ maxGestureCount h := by
  rw [maxGestureCount_eq]
  cases g
  · exact le_trans (le_max_left _ _) (le_trans (le_max_left _ _) (le_max_left _ _))
  · exact le_trans (le_max_right _ _) (le_trans (le_max_left _ _) (le_max_left _ _))
  · exact le_trans (le_max_right _ _) (le_max_left _ _)
  · exact le_max_right _ _

lemma maxGestureCount_attained (h : List Gesture) :
    h.count REST = maxGestureCount h ∨ h.count NEXT = maxGestureCount h ∨
      h.count PREV = maxGestureCount h ∨ h.count SELECT = maxGestureCount h := by
  rw [maxGestureCount_eq]
  rcases max_choice (max (max (h.count REST) (h.count NEXT)) (h.count PREV))
      (h.count SELECT) with h4 | h4
  · rw [h4]
    rcases max_choice (max (h.count REST) (h.count NEXT)) (h.count PREV) with h3 | h3
    · rw [h3]
      rcases max_choice (h.count REST) (h.count NEXT) with h2 | h2
      · rw [h2]
        exact Or.inl rfl
      · rw [h2]
        exact Or.inr (Or.inl rfl)
    · rw [h3]
      exact Or.inr (Or.inr (Or.inl rfl))
  · rw [h4]
    exact Or.inr (Or.inr (Or.inr rfl))

lemma computeMajorityGestureUncached_eq_spec (h : List Gesture) (hne : h ≠ []) :
    computeMajorityGestureUncached h = specFirstMaxGesture h := by
  have hx := majority_fold_pick (h.count REST) (h.count NEXT) (h.count PREV) (h.count SELECT)
    (maxGestureCount h) (count_le_maxGestureCount h REST) (count_le_maxGestureCount h NEXT)
    (count_le_maxGestureCount h PREV) (count_le_maxGestureCount h SELECT)
    (maxGestureCount_attained h)
  simp only [computeMajorityGestureUncached, specFirstMaxGesture, gestureEnum,
    List.map, if_neg hne]
  exact hx

lemma count_add_count_le_length (h : List Gesture) (u v : Gesture) (huv : u ≠ v) :
    h.count u + h.count v ≤ h.length := by
  induction h with
  | nil => simp
  | cons x t ih =>
    simp only [List.count_cons, List.length_cons, beq_iff_eq]
    split_ifs with h1 h2 h2
    · exact absurd (h1.symm.trans h2) huv
    · omega
    · omega
    · omega

/-- Strict majority characterisation: every other gesture occurs strictly less
often than a value holding more than half of the window. -/
lemma strictMajority_count_lt (h : List Gesture) (v u : Gesture) (huv : u ≠ v)
    (hmaj : 2 * h.count v > h.length) : h.count u < h.count v := by
  have := count_add_count_le_length h u v huv
  omega

lemma maxGestureCount_attained_exists (h : List Gesture) :
    ∃ w, maxGestureCount h = h.count w := by
  rcases maxGestureCount_attained h with hw | hw | hw | hw
  exacts [⟨REST, hw.symm⟩, ⟨NEXT, hw.symm⟩, ⟨PREV, hw.symm⟩, ⟨SELECT, hw.symm⟩]

lemma strictMajority_maxGestureCount (h : List Gesture) (v : Gesture)
    (hmaj : 2 * h.count v > h.length) : maxGestureCount h = h.count v := by
  obtain ⟨w, hw⟩ := maxGestureCount_attained_exists h
  rcases Decidable.eq_or_ne v w with rfl | hne
  · exact hw
  · have hlt := strictMajority_count_lt h v w (Ne.symm hne) hmaj
    have hle := count_le_maxGestureCount h v
    omega

lemma strictMajority_uncached (h : List Gesture) (v : Gesture)
    (hne : h ≠ []) (hmaj : 2 * h.count v > h.length) :
    computeMajorityGestureUncached h = some v := by
  rw [computeMajorityGestureUncached_eq_spec h hne]
  have hmax := strictMajority_maxGestureCount h v hmaj
  cases v with
  | REST =>
    simp [specFirstMaxGesture, hmax]
  | NEXT =>
    have h1 : h.count REST < h.count NEXT := strictMajority_count_lt h _ _ (by decide) hmaj
    simp only [specFirstMaxGesture, hmax]
    rw [if_neg (by omega)]
    simp
  | PREV =>
    have h1 : h.count REST < h.count PREV := strictMajority_count_lt h _ _ (by decide) hmaj
    have h2 : h.count NEXT < h.count PREV := strictMajority_count_lt h _ _ (by decide) hmaj
    simp only [specFirstMaxGesture, hmax]
    rw [if_neg (by omega), if_neg (by omega)]
    simp
  | SELECT =>
    have h1 : h.count REST < h.count SELECT := strictMajority_count_lt h _ _ (by decide) hmaj
    have h2 : h.count NEXT < h.count SELECT := strictMajority_count_lt h _ _ (by decide) hmaj
    have h3 : h.count PREV < h.count SELECT := strictMajority_count_lt h _ _ (by decide) hmaj
    simp only [specFirstMaxGesture, hmax]
    rw [if_neg (by omega), if_neg (by omega), if_neg (by omega)]
    simp

/-- Cache state of the memoized computeMajorityGesture closure: the stored
copy of the last history argument and the last returned result. -/
structure MemoState where
  lastHistory : List Gesture
  lastResult : Option Gesture
deriving DecidableEq, Repr

/-- Initial cache of the closure: lastHistory is the empty array and
lastResult is null. -/
def initMemoState : MemoState := ⟨[], none⟩

/-- Quick content check of the memo: the two arrays have the same length and
agree element by element (history.every comparing against lastHistory). -/
def historySameAs (history lastHistory : List Gesture) : Bool :=
  history.length == lastHistory.length &&
    (history.zip lastHistory).all fun p => p.1 == p.2

lemma historySameAs_iff (a b : List Gesture) : historySameAs a b = true ↔ a = b := by
  induction a generalizing b with
  | nil => cases b <;> simp [historySameAs]
  | cons x xs ih =>
    cases b with
    | nil => simp [historySameAs]
    | cons y ys =>
      have hx := ih ys
      simp [historySameAs] at hx ⊢
      constructor
      · rintro ⟨hlen, hxy, hall⟩
        exact ⟨hxy, hx.mp ⟨hlen, hall⟩⟩
      · rintro ⟨hxy, hys⟩
        rcases hx.mpr hys with ⟨hlen, hall⟩
        exact ⟨hlen, hxy, hall⟩

/-- Memoized computeMajorityGesture, the closure from the source: if the
history content-equals the cached copy, return the cached result; otherwise
recompute (empty history resets the cache and returns null, a non-empty
history computes the counting scan and stores a copy plus the result). -/
def computeMajorityGesture (ms : MemoState) (history : List Gesture) :
    Option Gesture × MemoState :=
  if historySameAs history ms.lastHistory then (ms.lastResult, ms)
  else if history = [] then (none, ⟨[], none⟩)
  else
    let r := computeMajorityGestureUncached history
    (r, ⟨history, r⟩)

/-- Cache consistency invariant: the stored result is exactly what the
uncached computation returns on the stored history. -/
def memoConsistent (ms : MemoState) : Prop :=
  ms.lastResult = computeMajorityGestureUncached ms.lastHistory

lemma memoConsistent_init : memoConsistent initMemoState := by
  simp [memoConsistent, initMemoState, computeMajorityGestureUncached]

lemma computeMajorityGesture_step (ms : MemoState) (h : List Gesture)
    (hinv : memoConsistent ms) :
    (computeMajorityGesture ms h).1 = computeMajorityGestureUncached h ∧
      memoConsistent (computeMajorityGesture ms h).2 := by
  unfold computeMajorityGesture
  by_cases hsame : historySameAs h ms.lastHistory
  · rw [if_pos hsame]
    have heq : h = ms.lastHistory := (historySameAs_iff h ms.lastHistory).mp hsame
    exact ⟨by rw [heq, hinv], hinv⟩
  · rw [if_neg hsame]
    by_cases hnil : h = []
    · subst hnil
      simp [memoConsistent, computeMajorityGestureUncached]
    · rw [if_neg hnil]
      exact ⟨rfl, rfl⟩

/-- Trace of memoized calls: feed each history of the list in order through
the cache, collecting the returned results. -/
def runMemo (ms : MemoState) : List (List Gesture) → List (Option Gesture)
  | [] => []
  | h :: rest =>
    let r := computeMajorityGesture ms h
    r.1 :: runMemo r.2 rest

lemma runMemo_eq_map (ms : MemoState) (hinv : memoConsistent ms)
    (calls : List (List Gesture)) :
    runMemo ms calls = calls.map computeMajorityGestureUncached := by
  induction calls generalizing ms with
  | nil => rfl
  | cons h rest ih =>
    obtain ⟨h1, h2⟩ := computeMajorityGesture_step ms h hinv
    simp [runMemo, h1, ih _ h2]

/-- Temporal smoother state of the camera feed component: the bounded gesture
history ref and the committed stable gesture ref (kept in sync with the
context value by the sync effect). -/
structure SmootherState where
  gestureHistory : List Gesture
  currentGesture : Gesture
deriving DecidableEq, Repr

/-- MAX_HISTORY_LENGTH from the source. -/
def MAX_HISTORY_LENGTH : Nat := 7

/-- MIN_HISTORY_LENGTH from the source. -/
def MIN_HISTORY_LENGTH : Nat := 4

/-- History window produced by one observation: push the inferred gesture and
shift out the oldest entry when the length exceeds MAX_HISTORY_LENGTH. -/
def updatedHistory (s : SmootherState) (g : Gesture) : List Gesture :=
  let pushed := s.gestureHistory ++ [g]
  if pushed.length > MAX_HISTORY_LENGTH then pushed.tail else pushed

/-- Gesture part of processPoseResults for a frame with pose landmarks: push
the inferred gesture, evict the oldest entry when the history exceeds
MAX_HISTORY_LENGTH, and when the history has reached MIN_HISTORY_LENGTH
compute the majority and commit it via setGesture only when it differs from
the current committed gesture.  The second component is the emission: the
argument passed to setGesture, or none when setGesture is not called. -/
def processGestureFrame (s : SmootherState) (inferredGesture : Gesture) :
    SmootherState × Option Gesture :=
  let bounded := updatedHistory s inferredGesture
  if bounded.length ≥ MIN_HISTORY_LENGTH then
    match computeMajorityGestureUncached bounded with
    | some m =>
      if m ≠ s.currentGesture then (⟨bounded, m⟩, some m)
      else (⟨bounded, s.currentGesture⟩, none)
    | none => (⟨bounded, s.currentGesture⟩, none)
  else (⟨bounded, s.currentGesture⟩, none)

lemma processGestureFrame_history (s : SmootherState) (g : Gesture) :
    (processGestureFrame s g).1.gestureHistory = updatedHistory s g := by
  unfold processGestureFrame
  dsimp only
  repeat' split
  all_goals rfl

/-- Trace of the smoother: process each observation in order, returning the
final state and the list of emissions (setGesture calls) in order. -/
def runSmoother (s : SmootherState) : List Gesture → SmootherState × List Gesture
  | [] => (s, [])
  | g :: rest =>
    let step := processGestureFrame s g
    let r := runSmoother step.1 rest
    (r.1, step.2.toList ++ r.2)

lemma updatedHistory_of_no_evict (s : SmootherState) (g : Gesture)
    (h : s.gestureHistory.length + 1 ≤ 7) :
    updatedHistory s g = s.gestureHistory ++ [g] := by
  unfold updatedHistory MAX_HISTORY_LENGTH
  dsimp only
  rw [if_neg]
  simp
  omega

lemma updatedHistory_length (s : SmootherState) (g : Gesture)
    (hle : s.gestureHistory.length ≤ 7) :
    (updatedHistory s g).length = min (s.gestureHistory.length + 1) 7 := by
  unfold updatedHistory MAX_HISTORY_LENGTH
  dsimp only
  split
  · rename_i hgt
    simp only [List.length_append, List.length_cons, List.length_nil] at hgt
    simp only [List.length_tail, List.length_append, List.length_cons, List.length_nil]
    rw [min_def]
    split_ifs <;> omega
  · rename_i hgt
    simp only [List.length_append, List.length_cons, List.length_nil] at hgt
    simp only [List.length_append, List.length_cons, List.length_nil]
    rw [min_def]
    split_ifs <;> omega

lemma processGestureFrame_noEmit_below_min (s : SmootherState) (g : Gesture)
    (hlen : s.gestureHistory.length + 1 < MIN_HISTORY_LENGTH) :
    processGestureFrame s g = (⟨s.gestureHistory ++ [g], s.currentGesture⟩, none) := by
  have hmin : s.gestureHistory.length + 1 < 4 := hlen
  have hb := updatedHistory_of_no_evict s g (by omega)
  unfold processGestureFrame
  dsimp only
  rw [hb, if_neg]
  simp only [List.length_append, List.length_cons, List.length_nil]
  unfold MIN_HISTORY_LENGTH
  omega

lemma processGestureFrame_emit_ne (s : SmootherState) (g : Gesture) (m : Gesture)
    (h : (processGestureFrame s g).2 = some m) :
    m ≠ s.currentGesture ∧ (processGestureFrame s g).1.currentGesture = m := by
  unfold processGestureFrame at h ⊢
  dsimp only at h ⊢
  repeat' split at h
  all_goals simp_all

lemma processGestureFrame_strictMajority (s : SmootherState) (g : Gesture) (v : Gesture)
    (hmin : MIN_HISTORY_LENGTH ≤ (updatedHistory s g).length)
    (hmaj : 2 * (updatedHistory s g).count v > (updatedHistory s g).length) :
    (processGestureFrame s g).1.currentGesture = v ∧
      (processGestureFrame s g).2 = (if v = s.currentGesture then none else some v) := by
  have hne : updatedHistory s g ≠ [] := by
    intro hempty
    rw [hempty] at hmin
    simp [MIN_HISTORY_LENGTH] at hmin
  have hcm := strictMajority_uncached (updatedHistory s g) v hne hmaj
  unfold processGestureFrame
  dsimp only
  rw [if_pos hmin, hcm]
  dsimp only
  by_cases hv : v = s.currentGesture <;> simp [hv]

lemma runSmoother_noEmit_short (s : SmootherState) (obs : List Gesture)
    (hlen : s.gestureHistory.length + obs.length < 4) :
    (runSmoother s obs).2 = [] ∧
      (runSmoother s obs).1.currentGesture = s.currentGesture := by
  induction obs generalizing s with
  | nil => exact ⟨rfl, rfl⟩
  | cons g rest ih =>
    have hstep := processGestureFrame_noEmit_below_min s g
      (by simp only [List.length_cons] at hlen; unfold MIN_HISTORY_LENGTH; omega)
    have hsub := ih ⟨s.gestureHistory ++ [g], s.currentGesture⟩
      (by simp only [List.length_cons] at hlen; simp; omega)
    simp only [runSmoother, hstep]
    simpa using hsub

lemma runSmoother_history_length (s : SmootherState) (obs : List Gesture)
    (hle : s.gestureHistory.length ≤ 7) :
    (runSmoother s obs).1.gestureHistory.length =
      min (s.gestureHistory.length + obs.length) 7 := by
  induction obs generalizing s with
  | nil =>
    simp only [runSmoother, List.length_nil, Nat.add_zero]
    rw [min_def]
    split_ifs <;> omega
  | cons g rest ih =>
    have hstep : (processGestureFrame s g).1.gestureHistory.length =
        min (s.gestureHistory.length + 1) 7 := by
      rw [processGestureFrame_history]
      exact updatedHistory_length s g hle
    have hle2 : (processGestureFrame s g).1.gestureHistory.length ≤ 7 := by
      rw [hstep]; exact min_le_right _ _
    have hsub := ih (processGestureFrame s g).1 hle2
    simp only [runSmoother, hsub, hstep, List.length_cons]
    rw [min_def, min_def, min_def]
    split_ifs <;> omega

/-- Module-level scheduling state of the camera feed: the timestamp of the
last processed frame, the single pending-results slot, the number of
scheduled-but-not-yet-run requestAnimationFrame callbacks (the source keeps
globalRafId, which is null exactly when no callback is queued), and a log of
the frames actually processed (payload and processing time).  Times are
performance.now values in milliseconds, modelled as rationals. -/
structure SchedulerState (α : Type) where
  globalLastFrameTime : ℚ
  globalPendingResults : Option α
  rafScheduledUnits : Nat
  processedFrames : List (α × ℚ)

/-- FRAME_INTERVAL from the source: 1000 / TARGET_FPS with TARGET_FPS = 30. -/
def FRAME_INTERVAL : ℚ := 1000 / 30

/-- Body of the pose.onResults callback: store the results in the pending
slot; if at least one frame budget elapsed since the last processed frame,
process immediately, stamp the time and clear the pending slot; otherwise
schedule a deferred callback only when none is already scheduled. -/
def onFrameAvailable {α : Type} (s : SchedulerState α) (results : α) (now : ℚ) :
    SchedulerState α :=
  let s1 := { s with globalPendingResults := some results }
  if now - s1.globalLastFrameTime ≥ FRAME_INTERVAL then
    { s1 with
        processedFrames := s1.processedFrames ++ [(results, now)],
        globalLastFrameTime := now,
        globalPendingResults := none }
  else if s1.rafScheduledUnits = 0 then
    { s1 with rafScheduledUnits := s1.rafScheduledUnits + 1 }
  else s1

/-- Body of the scheduled requestAnimationFrame callback: if a pending result
exists, process it, stamp the time and clear the pending slot; in all cases
the scheduled unit is consumed (globalRafId is set back to null). -/
def rafCallbackFire {α : Type} (s : SchedulerState α) (now : ℚ) : SchedulerState α :=
  let s1 :=
    match s.globalPendingResults with
    | some p =>
      { s with
          processedFrames := s.processedFrames ++ [(p, now)],
          globalLastFrameTime := now,
          globalPendingResults := none }
    | none => s
  { s1 with rafScheduledUnits := s1.rafScheduledUnits - 1 }

lemma onFrameAvailable_deferred {α : Type} (s : SchedulerState α) (results : α) (now : ℚ)
    (hlt : now - s.globalLastFrameTime < FRAME_INTERVAL) :
    onFrameAvailable s results now =
      { s with
          globalPendingResults := some results,
          rafScheduledUnits := if s.rafScheduledUnits = 0 then 1 else s.rafScheduledUnits } := by
  unfold onFrameAvailable
  dsimp only
  rw [if_neg (not_le.mpr hlt)]
  by_cases h0 : s.rafScheduledUnits = 0 <;> simp [h0]

lemma onFrameAvailable_raf_bound {α : Type} (s : SchedulerState α) (results : α) (now : ℚ)
    (hle : s.rafScheduledUnits ≤ 1) :
    (onFrameAvailable s results now).rafScheduledUnits ≤ 1 := by
  unfold onFrameAvailable
  dsimp only
  split_ifs <;> simp <;> omega

lemma rafCallbackFire_raf_bound {α : Type} (s : SchedulerState α) (now : ℚ)
    (hle : s.rafScheduledUnits ≤ 1) :
    (rafCallbackFire s now).rafScheduledUnits ≤ 1 := by
  unfold rafCallbackFire
  dsimp only
  split <;> simp <;> omega

/-- Lesson progress record persisted per category: the flashcard index, the
completion flag and the translation visibility flag.  The index, a JavaScript
number used as an array index, is modelled as an integer. -/
structure LessonProgress where
  index : Int
  completed : Bool
  showTranslation : Bool
deriving DecidableEq, Repr

/-- JSON value trees, the results of a successful JSON.parse. -/
inductive Json where
  | null
  | bool (b : Bool)
  | num (n : Int)
  | str (s : String)
  | arr (elems : List Json)
  | obj (fields : List (String × Json))

/-- Modelled external JSON library boundary: a stored string either parses to
a JSON tree (jsonText, in particular every JSON.stringify output) or fails
JSON.parse (rawText, carrying the raw characters; the empty string belongs
here because JSON.parse rejects it). -/
inductive StoredString where
  | jsonText (j : Json)
  | rawText (s : String)

/-- Falsiness test used by the source via the JavaScript check on the stored
string: among strings only the empty string is falsy. -/
def isEmptyStored : StoredString → Bool
  | .rawText "" => true
  | _ => false

/-- JSON.parse on a stored string: the parse result when it exists. -/
def parseJson : StoredString → Option Json
  | .jsonText j => some j
  | .rawText _ => none

/-- JSON.stringify of a LessonProgress value, with the three fields in
declaration order. -/
def stringifyProgress (data : LessonProgress) : StoredString :=
  .jsonText (.obj
    [("index", .num data.index),
     ("completed", .bool data.completed),
     ("showTranslation", .bool data.showTranslation)])

/-- The localStorage key-value store restricted to string values. -/
def Storage : Type := String → Option StoredString

/-- localStorage.removeItem. -/
def removeItem (storage : Storage) (key : String) : Storage :=
  fun k => if k = key then none else storage k

/-- localStorage.setItem. -/
def setItem (storage : Storage) (key : String) (value : StoredString) : Storage :=
  fun k => if k = key then some value else storage k

/-- Property access on a parsed JSON value (undefined on non-objects). -/
def getField : Json → String → Option Json
  | .obj fields, name => fields.lookup name
  | _, _ => none

/-- Parse plus structural validation performed by loadProgress: the parsed
value must have a numeric index, a boolean completed and a boolean
showTranslation. -/
def decodeStoredProgress (sv : StoredString) : Option LessonProgress :=
  match parseJson sv with
  | none => none
  | some parsed =>
    match getField parsed "index", getField parsed "completed",
        getField parsed "showTranslation" with
    | some (.num i), some (.bool c), some (.bool t) => some ⟨i, c, t⟩
    | _, _, _ => none

/-- loadProgress from the progress storage utilities: returns the loaded
progress (or none) together with the storage as left behind (the corrupt
entry may have been removed).  An empty categoryId or an absent or falsy
stored string yields none without touching storage; a stored string that
fails JSON.parse, or parses to a value failing the field validation, yields
none and the entry is removed. -/
def loadProgress (storage : Storage) (categoryId : String) :
    Option LessonProgress × Storage :=
  if categoryId = "" then (none, storage)
  else
    let storageKey := "progress:" ++ categoryId
    match storage storageKey with
    | none => (none, storage)
    | some stored =>
      if isEmptyStored stored then (none, storage)
      else
        match decodeStoredProgress stored with
        | some p => (some p, storage)
        | none => (none, removeItem storage storageKey)

/-- DEBOUNCE_MS from the source. -/
def DEBOUNCE_MS : ℚ := 200

/-- State of the debounced write queue: the per-category debounce timer map
(modelled by the absolute time at which the outstanding timer fires), the
per-category pending write map, the backing storage and the log of durable
writes performed, in order. -/
structure ProgressStoreState where
  debounceTimers : String → Option ℚ
  pendingWrites : String → Option LessonProgress
  storage : Storage
  writeLog : List (String × StoredString)

/-- saveProgress: record the pending write for the category, cancel any
outstanding timer for it and schedule a fresh one DEBOUNCE_MS from now (the
map entry for the key is overwritten, so at most one timer per key remains).
An empty categoryId is rejected up front. -/
def saveProgress (s : ProgressStoreState) (categoryId : String)
    (data : LessonProgress) (now : ℚ) : ProgressStoreState :=
  if categoryId = "" then s
  else
    { s with
        pendingWrites := fun k => if k = categoryId then some data else s.pendingWrites k,
        debounceTimers := fun k =>
          if k = categoryId then some (now + DEBOUNCE_MS) else s.debounceTimers k }

/-- debouncedWriteProgress, the timer callback: if a pending write exists for
the category, serialize it, write it durably under the namespaced key, then
clear the pending write and the timer entry. -/
def debouncedWriteProgress (s : ProgressStoreState) (categoryId : String) :
    ProgressStoreState :=
  match s.pendingWrites categoryId with
  | none => s
  | some data =>
    let storageKey := "progress:" ++ categoryId
    let serialized := stringifyProgress data
    { s with
        storage := setItem s.storage storageKey serialized,
        writeLog := s.writeLog ++ [(storageKey, serialized)],
        pendingWrites := fun k => if k = categoryId then none else s.pendingWrites k,
        debounceTimers := fun k => if k = categoryId then none else s.debounceTimers k }

/-- Timed driver for a sequence of saveProgress calls on one category: before
each call the timer for the category fires if its scheduled time has been
reached, and after the last call the outstanding timer (if any) fires. -/
def runKeySaves (s : ProgressStoreState) (categoryId : String) :
    List (ℚ × LessonProgress) → ProgressStoreState
  | [] =>
    match s.debounceTimers categoryId with
    | some _ => debouncedWriteProgress s categoryId
    | none => s
  | (t, v) :: rest =>
    let s1 :=
      match s.debounceTimers categoryId with
      | some fireTime => if fireTime ≤ t then debouncedWriteProgress s categoryId else s
      | none => s
    runKeySaves (saveProgress s1 categoryId v t) categoryId rest

/-- Stored gesture sensitivity strings at the parseFloat boundary: numPrefix
carries the parsed value of a string parseFloat accepts, nonNumeric stands
for a string on which parseFloat yields NaN. -/
inductive SensitivityString where
  | numPrefix (q : ℚ)
  | nonNumeric (s : String)

/-- parseFloat on a stored sensitivity string, none standing for NaN. -/
def parseFloatValue : SensitivityString → Option ℚ
  | .numPrefix q => some q
  | .nonNumeric _ => none

/-- DEFAULT_GESTURE_SENSITIVITY from SettingsPanel, also the fallback in the
camera feed initializer. -/
def DEFAULT_GESTURE_SENSITIVITY : ℚ := 12 / 100

/-- loadNumberFromStorage from SettingsPanel: return the parseFloat result of
the stored string whenever it is a number, and the default only when the key
is absent or parses to NaN.  No range check is performed. -/
def loadNumberFromStorage (stored : Option SensitivityString) (defaultValue : ℚ) : ℚ :=
  match stored with
  | some s =>
    match parseFloatValue s with
    | some parsed => parsed
    | none => defaultValue
  | none => defaultValue

/-- Initializer of numericSensitivity in the camera feed component: accept
the stored value only when it parses and lies in the closed range 0 to 1;
otherwise fall back to 0.12. -/
def numericSensitivityInit (stored : Option SensitivityString) : ℚ :=
  match stored with
  | some s =>
    match parseFloatValue s with
    | some parsed =>
      if 0 ≤ parsed ∧ parsed ≤ 1 then parsed else DEFAULT_GESTURE_SENSITIVITY
    | none => DEFAULT_GESTURE_SENSITIVITY
  | none => DEFAULT_GESTURE_SENSITIVITY

/-- Effect of the bare saveProgress calls of a trace, ignoring timer firing:
fold the calls over the state in order. -/
def applySaves (s : ProgressStoreState) (categoryId : String)
    (events : List (ℚ × LessonProgress)) : ProgressStoreState :=
  events.foldl (fun acc tv => saveProgress acc categoryId tv.2 tv.1) s

lemma saveProgress_timer (s : ProgressStoreState) (categoryId : String)
    (data : LessonProgress) (now : ℚ) (hkey : categoryId ≠ "") :
    (saveProgress s categoryId data now).debounceTimers categoryId =
      some (now + DEBOUNCE_MS) := by
  unfold saveProgress
  rw [if_neg hkey]
  simp

lemma saveProgress_pending (s : ProgressStoreState) (categoryId : String)
    (data : LessonProgress) (now : ℚ) (hkey : categoryId ≠ "") :
    (saveProgress s categoryId data now).pendingWrites categoryId = some data := by
  unfold saveProgress
  rw [if_neg hkey]
  simp

lemma saveProgress_storage_log (s : ProgressStoreState) (categoryId : String)
    (data : LessonProgress) (now : ℚ) :
    (saveProgress s categoryId data now).storage = s.storage ∧
      (saveProgress s categoryId data now).writeLog = s.writeLog := by
  unfold saveProgress
  split <;> exact ⟨rfl, rfl⟩

lemma applySaves_storage_log (s : ProgressStoreState) (categoryId : String)
    (events : List (ℚ × LessonProgress)) :
    (applySaves s categoryId events).storage = s.storage ∧
      (applySaves s categoryId events).writeLog = s.writeLog := by
  induction events generalizing s with
  | nil => exact ⟨rfl, rfl⟩
  | cons e rest ih =>
    have h1 := saveProgress_storage_log s categoryId e.2 e.1
    have h2 := ih (saveProgress s categoryId e.2 e.1)
    exact ⟨h2.1.trans h1.1, h2.2.trans h1.2⟩

lemma applySaves_last (s : ProgressStoreState) (categoryId : String)
    (hkey : categoryId ≠ "") (events : List (ℚ × LessonProgress))
    (hne : events ≠ []) :
    (applySaves s categoryId events).pendingWrites categoryId =
        some (events.getLast hne).2 ∧
      (applySaves s categoryId events).debounceTimers categoryId =
        some ((events.getLast hne).1 + DEBOUNCE_MS) := by
  induction events generalizing s with
  | nil => exact absurd rfl hne
  | cons e rest ih =>
    cases rest with
    | nil =>
      simp only [applySaves, List.foldl, List.getLast_singleton]
      exact ⟨saveProgress_pending s categoryId e.2 e.1 hkey,
        saveProgress_timer s categoryId e.2 e.1 hkey⟩
    | cons e2 rest2 =>
      have hne2 : e2 :: rest2 ≠ [] := by simp
      have := ih (saveProgress s categoryId e.2 e.1) hne2
      simpa [applySaves, List.getLast_cons] using this

lemma runKeySaves_no_fire (categoryId : String) (hkey : categoryId ≠ "")
    (events : List (ℚ × LessonProgress)) :
    ∀ (s : ProgressStoreState) (tprev : ℚ),
      s.debounceTimers categoryId = some (tprev + DEBOUNCE_MS) →
      List.Chain (fun a b => b < a + DEBOUNCE_MS) tprev (events.map Prod.fst) →
      runKeySaves s categoryId events =
        debouncedWriteProgress (applySaves s categoryId events) categoryId := by
  induction events with
  | nil =>
    intro s tprev htimer _
    simp [runKeySaves, htimer, applySaves]
  | cons e rest ih =>
    intro s tprev htimer hchain
    obtain ⟨t, v⟩ := e
    simp only [List.map_cons] at hchain
    rw [List.chain_cons] at hchain
    obtain ⟨hlt, hchain2⟩ := hchain
    show runKeySaves s categoryId ((t, v) :: rest) = _
    rw [runKeySaves]
    have hnofire : ¬ (tprev + DEBOUNCE_MS ≤ t) := not_le.mpr hlt
    rw [htimer]
    dsimp only
    rw [if_neg hnofire]
    have htimer2 := saveProgress_timer s categoryId v t hkey
    rw [ih (saveProgress s categoryId v t) t htimer2 hchain2]
    rfl

lemma runKeySaves_clean_start (categoryId : String) (hkey : categoryId ≠ "")
    (s : ProgressStoreState) (hnone : s.debounceTimers categoryId = none)
    (t : ℚ) (v : LessonProgress) (rest : List (ℚ × LessonProgress))
    (hchain : List.Chain (fun a b => b < a + DEBOUNCE_MS) t (rest.map Prod.fst)) :
    runKeySaves s categoryId ((t, v) :: rest) =
      debouncedWriteProgress (applySaves s categoryId ((t, v) :: rest)) categoryId := by
  rw [runKeySaves, hnone]
  dsimp only
  have htimer := saveProgress_timer s categoryId v t hkey
  rw [runKeySaves_no_fire categoryId hkey rest (saveProgress s categoryId v t) t htimer hchain]
  rfl

lemma debouncedWriteProgress_of_pending (s : ProgressStoreState) (categoryId : String)
    (data : LessonProgress) (hpend : s.pendingWrites categoryId = some data) :
    (debouncedWriteProgress s categoryId).writeLog =
        s.writeLog ++ [("progress:" ++ categoryId, stringifyProgress data)] ∧
      (debouncedWriteProgress s categoryId).storage ("progress:" ++ categoryId) =
        some (stringifyProgress data) ∧
      (debouncedWriteProgress s categoryId).pendingWrites categoryId = none ∧
      (debouncedWriteProgress s categoryId).debounceTimers categoryId = none := by
  unfold debouncedWriteProgress
  rw [hpend]
  refine ⟨rfl, ?_, by simp, by simp⟩
  simp [setItem]

lemma decode_stringify (v : LessonProgress) :
    decodeStoredProgress (stringifyProgress v) = some v := by
  simp [decodeStoredProgress, stringifyProgress, parseJson, getField, List.lookup]

lemma isEmptyStored_stringify (v : LessonProgress) :
    isEmptyStored (stringifyProgress v) = false := rfl

lemma loadProgress_of_stringified (st : Storage) (categoryId : String)
    (hkey : categoryId ≠ "") (v : LessonProgress)
    (hst : st ("progress:" ++ categoryId) = some (stringifyProgress v)) :
    (loadProgress st categoryId).1 = some v := by
  unfold loadProgress
  rw [if_neg hkey]
  dsimp only
  rw [hst]
  dsimp only
  rw [if_neg (by rw [isEmptyStored_stringify]; simp)]
  rw [decode_stringify]

/-- C1: for every non-empty gesture history, computeMajorityGesture (called
from any cache-consistent memo state) returns the gesture with the strictly
highest occurrence count, and on a tie the first gesture in the fixed
enumeration order REST, NEXT, PREV, SELECT holding the maximal count: the
result equals the specification pick specFirstMaxGesture, and the count of
the returned gesture is the maximal count. -/
theorem claim_C1_majority_tie_break (ms : MemoState) (history : List Gesture)
    (hinv : memoConsistent ms) (hne : history ≠ []) :
    (computeMajorityGesture ms history).1 = specFirstMaxGesture history ∧
      ∀ v, (computeMajorityGesture ms history).1 = some v →
        history.count v = maxGestureCount history := by
  have hstep := (computeMajorityGesture_step ms history hinv).1
  constructor
  · rw [hstep]
    exact computeMajorityGestureUncached_eq_spec history hne
  · intro v hv
    rw [hstep, computeMajorityGestureUncached_eq_spec history hne] at hv
    unfold specFirstMaxGesture at hv
    split_ifs at hv <;> simp_all

/-- Witness for C1 at the concrete history NEXT, REST, NEXT, REST, a tie
between REST and NEXT at count two which the enumeration order resolves
towards REST. -/
theorem claim_C1_majority_tie_break_witness :
    (computeMajorityGesture initMemoState [NEXT, REST, NEXT, REST]).1 =
        specFirstMaxGesture [NEXT, REST, NEXT, REST] ∧
      ∀ v, (computeMajorityGesture initMemoState [NEXT, REST, NEXT, REST]).1 = some v →
        [NEXT, REST, NEXT, REST].count v = maxGestureCount [NEXT, REST, NEXT, REST] :=
  claim_C1_majority_tie_break initMemoState [NEXT, REST, NEXT, REST] memoConsistent_init (by decide)

/-- C9: the memoized computeMajorityGesture is result-equivalent to the
uncached counting computation: feeding any sequence of history arguments
through the cache, starting from the initial empty cache, returns on every
call exactly the value the plain computation returns on that call. -/
theorem claim_C9_memo_result_equivalence (calls : List (List Gesture)) :
    runMemo initMemoState calls = calls.map computeMajorityGestureUncached :=
  runMemo_eq_map initMemoState memoConsistent_init calls

/-- C5: with fewer than MIN_HISTORY_LENGTH entries in the window no change is
committed: a single observation whose post-push window is still short emits
nothing and leaves the committed gesture unchanged, and from a fresh (empty
or reset) history any sequence of fewer than MIN_HISTORY_LENGTH observations
emits nothing and leaves the committed gesture unchanged. -/
theorem claim_C5_no_emission_below_min :
    (∀ (s : SmootherState) (g : Gesture),
        s.gestureHistory.length + 1 < MIN_HISTORY_LENGTH →
        (processGestureFrame s g).2 = none ∧
          (processGestureFrame s g).1.currentGesture = s.currentGesture) ∧
      (∀ (s : SmootherState) (obs : List Gesture),
        s.gestureHistory = [] → obs.length < MIN_HISTORY_LENGTH →
        (runSmoother s obs).2 = [] ∧
          (runSmoother s obs).1.currentGesture = s.currentGesture) := by
  constructor
  · intro s g hlen
    rw [processGestureFrame_noEmit_below_min s g hlen]
    exact ⟨rfl, rfl⟩
  · intro s obs hhist hlen
    apply runSmoother_noEmit_short
    rw [hhist]
    simp only [List.length_nil, Nat.zero_add]
    exact hlen

/-- Witness for C5: three NEXT observations from the empty history emit
nothing and keep the committed gesture at REST. -/
theorem claim_C5_no_emission_below_min_witness :
    (runSmoother ⟨[], REST⟩ [NEXT, NEXT, NEXT]).2 = [] ∧
      (runSmoother ⟨[], REST⟩ [NEXT, NEXT, NEXT]).1.currentGesture = REST :=
  claim_C5_no_emission_below_min.2 ⟨[], REST⟩ [NEXT, NEXT, NEXT] rfl (by decide)

/-- C6: the history is bounded by MAX_HISTORY_LENGTH after every observation;
an observation from a full window evicts exactly the oldest entry (FIFO); and
from the empty history, after any prefix of at least MAX_HISTORY_LENGTH
observations the length is exactly MAX_HISTORY_LENGTH. -/
theorem claim_C6_history_bounded_fifo :
    (∀ (s : SmootherState) (g : Gesture),
        s.gestureHistory.length ≤ MAX_HISTORY_LENGTH →
        (processGestureFrame s g).1.gestureHistory.length ≤ MAX_HISTORY_LENGTH) ∧
      (∀ (s : SmootherState) (g : Gesture),
        s.gestureHistory.length = MAX_HISTORY_LENGTH →
        (processGestureFrame s g).1.gestureHistory = s.gestureHistory.tail ++ [g]) ∧
      (∀ (s : SmootherState) (obs : List Gesture),
        s.gestureHistory = [] →
        ∀ k, MAX_HISTORY_LENGTH ≤ k → k ≤ obs.length →
        (runSmoother s (obs.take k)).1.gestureHistory.length = MAX_HISTORY_LENGTH) := by
  refine ⟨?_, ?_, ?_⟩
  · intro s g hle
    rw [processGestureFrame_history, updatedHistory_length s g hle]
    exact min_le_right _ _
  · intro s g hfull
    rw [processGestureFrame_history]
    unfold updatedHistory MAX_HISTORY_LENGTH
    dsimp only
    rw [if_pos (by simp [hfull, MAX_HISTORY_LENGTH])]
    cases hh : s.gestureHistory with
    | nil => rw [hh] at hfull; simp [MAX_HISTORY_LENGTH] at hfull
    | cons x xs => simp
  · intro s obs hhist k hk hkle
    have hlen := runSmoother_history_length s (obs.take k) (by rw [hhist]; simp)
    rw [hlen, hhist]
    simp only [List.length_nil, Nat.zero_add, List.length_take]
    unfold MAX_HISTORY_LENGTH at hk ⊢
    rw [min_def, min_def]
    split_ifs <;> omega

/-- Witness for C6: an observation on a full seven-entry window keeps length
seven and evicts the oldest entry, and eight observations from the empty
history leave exactly seven entries. -/
theorem claim_C6_history_bounded_fifo_witness :
    (processGestureFrame ⟨[REST, REST, REST, REST, REST, REST, REST], REST⟩
        NEXT).1.gestureHistory.length ≤ MAX_HISTORY_LENGTH ∧
      (processGestureFrame ⟨[REST, REST, REST, REST, REST, REST, REST], REST⟩
          NEXT).1.gestureHistory =
        [REST, REST, REST, REST, REST, REST, REST].tail ++ [NEXT] ∧
      (runSmoother ⟨[], REST⟩
          ([NEXT, NEXT, NEXT, NEXT, NEXT, NEXT, NEXT, NEXT].take 7)).1.gestureHistory.length =
        MAX_HISTORY_LENGTH :=
  ⟨claim_C6_history_bounded_fifo.1 ⟨[REST, REST, REST, REST, REST, REST, REST], REST⟩
      NEXT (by decide),
    claim_C6_history_bounded_fifo.2.1 ⟨[REST, REST, REST, REST, REST, REST, REST], REST⟩
      NEXT (by decide),
    claim_C6_history_bounded_fifo.2.2 ⟨[], REST⟩
      [NEXT, NEXT, NEXT, NEXT, NEXT, NEXT, NEXT, NEXT] rfl 7 (by decide) (by decide)⟩

/-- C4: whenever one gesture holds a strict majority of the post-observation
window and the window has reached MIN_HISTORY_LENGTH (its length is between
MIN_HISTORY_LENGTH and MAX_HISTORY_LENGTH), the committed gesture after the
frame is that majority value and setGesture is called exactly when the
majority differs from the previously committed value; an emission always
carries a value different from the previous committed one; and a second
frame whose window keeps the same strict majority produces no further
emission. -/
theorem claim_C4_majority_emission :
    (∀ (s : SmootherState) (g : Gesture) (v : Gesture),
        MIN_HISTORY_LENGTH ≤ (updatedHistory s g).length →
        (updatedHistory s g).length ≤ MAX_HISTORY_LENGTH →
        2 * (updatedHistory s g).count v > (updatedHistory s g).length →
        (processGestureFrame s g).1.currentGesture = v ∧
          (processGestureFrame s g).2 =
            (if v = s.currentGesture then none else some v)) ∧
      (∀ (s : SmootherState) (g m : Gesture),
        (processGestureFrame s g).2 = some m → m ≠ s.currentGesture) ∧
      (∀ (s : SmootherState) (g g2 : Gesture) (v : Gesture),
        MIN_HISTORY_LENGTH ≤ (updatedHistory s g).length →
        2 * (updatedHistory s g).count v > (updatedHistory s g).length →
        MIN_HISTORY_LENGTH ≤ (updatedHistory (processGestureFrame s g).1 g2).length →
        2 * (updatedHistory (processGestureFrame s g).1 g2).count v >
          (updatedHistory (processGestureFrame s g).1 g2).length →
        (processGestureFrame (processGestureFrame s g).1 g2).2 = none) := by
  refine ⟨?_, ?_, ?_⟩
  · intro s g v hmin _ hmaj
    exact processGestureFrame_strictMajority s g v hmin hmaj
  · intro s g m hm
    exact (processGestureFrame_emit_ne s g m hm).1
  · intro s g g2 v hmin1 hmaj1 hmin2 hmaj2
    have h1 := processGestureFrame_strictMajority s g v hmin1 hmaj1
    have h2 := processGestureFrame_strictMajority (processGestureFrame s g).1 g2 v hmin2 hmaj2
    rw [h2.2, if_pos h1.1.symm]

/-- Witness for C4: the scenario NEXT, NEXT, NEXT, REST from the spec, with
committed gesture REST: the majority NEXT is committed and emitted on the
fourth observation, and a fifth NEXT observation keeping the majority
produces no further emission. -/
theorem claim_C4_majority_emission_witness :
    ((processGestureFrame ⟨[NEXT, NEXT, NEXT], REST⟩ REST).1.currentGesture = NEXT ∧
        (processGestureFrame ⟨[NEXT, NEXT, NEXT], REST⟩ REST).2 =
          (if NEXT = REST then none else some NEXT)) ∧
      (processGestureFrame
        (processGestureFrame ⟨[NEXT, NEXT, NEXT], REST⟩ REST).1 NEXT).2 = none :=
  ⟨claim_C4_majority_emission.1 ⟨[NEXT, NEXT, NEXT], REST⟩ REST NEXT
      (by decide) (by decide) (by decide),
    claim_C4_majority_emission.2.2 ⟨[NEXT, NEXT, NEXT], REST⟩ REST NEXT NEXT
      (by decide) (by decide) (by decide) (by decide)⟩

/-- C2: the frame dispatch scheduler keeps at most one scheduled deferred
unit (both transitions preserve the bound); a frame arriving within one frame
budget of the last processed frame is not processed but overwrites the single
pending slot, scheduling a unit only when none exists; and for two frames
both arriving within one frame budget of the last processed frame, nothing
is processed before the deferred callback runs, exactly one unit is
scheduled, the pending slot holds the second payload, and the single deferred
run processes exactly the second (later) payload and frees the slot. -/
theorem claim_C2_frame_dispatch (α : Type) :
    (∀ (s : SchedulerState α) (r : α) (t : ℚ), s.rafScheduledUnits ≤ 1 →
        (onFrameAvailable s r t).rafScheduledUnits ≤ 1) ∧
      (∀ (s : SchedulerState α) (t : ℚ), s.rafScheduledUnits ≤ 1 →
        (rafCallbackFire s t).rafScheduledUnits ≤ 1) ∧
      (∀ (s : SchedulerState α) (r : α) (t : ℚ),
        t - s.globalLastFrameTime < FRAME_INTERVAL →
        (onFrameAvailable s r t).globalPendingResults = some r ∧
          (onFrameAvailable s r t).processedFrames = s.processedFrames ∧
          (onFrameAvailable s r t).rafScheduledUnits =
            (if s.rafScheduledUnits = 0 then 1 else s.rafScheduledUnits)) ∧
      (∀ (s : SchedulerState α) (p1 p2 : α) (t1 t2 t3 : ℚ),
        s.rafScheduledUnits = 0 →
        t1 - s.globalLastFrameTime < FRAME_INTERVAL →
        t2 - s.globalLastFrameTime < FRAME_INTERVAL →
        (onFrameAvailable (onFrameAvailable s p1 t1) p2 t2).processedFrames =
            s.processedFrames ∧
          (onFrameAvailable (onFrameAvailable s p1 t1) p2 t2).rafScheduledUnits = 1 ∧
          (onFrameAvailable (onFrameAvailable s p1 t1) p2 t2).globalPendingResults =
            some p2 ∧
          (rafCallbackFire (onFrameAvailable (onFrameAvailable s p1 t1) p2 t2)
              t3).processedFrames = s.processedFrames ++ [(p2, t3)] ∧
          (rafCallbackFire (onFrameAvailable (onFrameAvailable s p1 t1) p2 t2)
              t3).rafScheduledUnits = 0) := by
  refine ⟨?_, ?_, ?_, ?_⟩
  · exact fun s r t => onFrameAvailable_raf_bound s r t
  · exact fun s t => rafCallbackFire_raf_bound s t
  · intro s r t hlt
    rw [onFrameAvailable_deferred s r t hlt]
    exact ⟨rfl, rfl, rfl⟩
  · intro s p1 p2 t1 t2 t3 hraf hlt1 hlt2
    have h1 := onFrameAvailable_deferred s p1 t1 hlt1
    have hlt2b : t2 - (onFrameAvailable s p1 t1).globalLastFrameTime < FRAME_INTERVAL := by
      rw [h1]
      exact hlt2
    have h2 := onFrameAvailable_deferred (onFrameAvailable s p1 t1) p2 t2 hlt2b
    rw [h2, h1]
    simp [hraf, rafCallbackFire]

/-- Witness for C2 at a concrete state: from the initial state with last
processed time 0, deferred frames at times 10 and 20, and the deferred run at
time 40, exactly the second payload is processed. -/
theorem claim_C2_frame_dispatch_witness :
    (rafCallbackFire (onFrameAvailable (onFrameAvailable
          (⟨0, none, 0, []⟩ : SchedulerState Nat) 1 10) 2 20) 40).processedFrames =
        ([] : List (Nat × ℚ)) ++ [(2, 40)] ∧
      (rafCallbackFire (onFrameAvailable (onFrameAvailable
          (⟨0, none, 0, []⟩ : SchedulerState Nat) 1 10) 2 20) 40).rafScheduledUnits = 0 := by
  have h := (claim_C2_frame_dispatch Nat).2.2.2 ⟨0, none, 0, []⟩ 1 2 10 20 40 rfl
    (by norm_num [FRAME_INTERVAL]) (by norm_num [FRAME_INTERVAL])
  exact ⟨h.2.2.2.1, h.2.2.2.2⟩

/-- C3: for one or more saveProgress calls on the same non-empty key, each
arriving strictly within DEBOUNCE_MS of the previous one and starting with no
outstanding timer for the key, exactly one durable write occurs for the key
and it stores the serialization of the last requested value, after which the
timer and pending entries for the key are clear; moreover every saveProgress
call replaces the single timer slot of its key with a fresh timer. -/
theorem claim_C3_debounce_single_write (categoryId : String) (hkey : categoryId ≠ "")
    (s : ProgressStoreState) (hclean : s.debounceTimers categoryId = none)
    (t : ℚ) (v : LessonProgress) (rest : List (ℚ × LessonProgress))
    (hchain : List.Chain (fun a b => b < a + DEBOUNCE_MS) t (rest.map Prod.fst)) :
    (runKeySaves s categoryId ((t, v) :: rest)).writeLog =
        s.writeLog ++ [("progress:" ++ categoryId,
          stringifyProgress (((t, v) :: rest).getLast (List.cons_ne_nil _ _)).2)] ∧
      (runKeySaves s categoryId ((t, v) :: rest)).storage ("progress:" ++ categoryId) =
        some (stringifyProgress (((t, v) :: rest).getLast (List.cons_ne_nil _ _)).2) ∧
      (runKeySaves s categoryId ((t, v) :: rest)).debounceTimers categoryId = none ∧
      (runKeySaves s categoryId ((t, v) :: rest)).pendingWrites categoryId = none ∧
      (∀ (s2 : ProgressStoreState) (t2 : ℚ) (v2 : LessonProgress),
        (saveProgress s2 categoryId v2 t2).debounceTimers categoryId =
          some (t2 + DEBOUNCE_MS)) := by
  have hrun := runKeySaves_clean_start categoryId hkey s hclean t v rest hchain
  have hlast := applySaves_last s categoryId hkey ((t, v) :: rest) (List.cons_ne_nil _ _)
  have hsl := applySaves_storage_log s categoryId ((t, v) :: rest)
  have hw := debouncedWriteProgress_of_pending (applySaves s categoryId ((t, v) :: rest))
    categoryId _ hlast.1
  rw [hrun]
  refine ⟨?_, hw.2.1, hw.2.2.2, hw.2.2.1,
    fun s2 t2 v2 => saveProgress_timer s2 categoryId v2 t2 hkey⟩
  rw [hw.1, hsl.2]

/-- Witness for C3: two saves of different values to the key animals at times
0 and 100 (inside the 200ms quiet period) produce exactly one write holding
the second value. -/
theorem claim_C3_debounce_single_write_witness :
    (runKeySaves ⟨fun _ => none, fun _ => none, fun _ => none, []⟩ "animals"
          [(0, ⟨2, false, true⟩), (100, ⟨3, false, true⟩)]).writeLog =
        [] ++ [("progress:" ++ "animals",
          stringifyProgress (([((0 : ℚ), (⟨2, false, true⟩ : LessonProgress)),
            (100, ⟨3, false, true⟩)]).getLast (List.cons_ne_nil _ _)).2)] ∧
      (runKeySaves ⟨fun _ => none, fun _ => none, fun _ => none, []⟩ "animals"
          [(0, ⟨2, false, true⟩), (100, ⟨3, false, true⟩)]).storage
          ("progress:" ++ "animals") =
        some (stringifyProgress (([((0 : ℚ), (⟨2, false, true⟩ : LessonProgress)),
          (100, ⟨3, false, true⟩)]).getLast (List.cons_ne_nil _ _)).2) := by
  have h := claim_C3_debounce_single_write "animals" (by decide)
    ⟨fun _ => none, fun _ => none, fun _ => none, []⟩ rfl 0 ⟨2, false, true⟩
    [(100, ⟨3, false, true⟩)]
    (by simp [List.chain_cons, DEBOUNCE_MS]; norm_num)
  exact ⟨h.1, h.2.1⟩

/-- C10: saving a value for a non-empty key with no outstanding timer and
letting the debounce timer fire durably stores its serialization, and a
subsequent loadProgress for the key returns exactly the saved value. -/
theorem claim_C10_save_load_round_trip (categoryId : String) (hkey : categoryId ≠ "")
    (s : ProgressStoreState) (hclean : s.debounceTimers categoryId = none)
    (t : ℚ) (v : LessonProgress) :
    (loadProgress (runKeySaves s categoryId [(t, v)]).storage categoryId).1 = some v := by
  have hrun := runKeySaves_clean_start categoryId hkey s hclean t v [] List.Chain.nil
  have hlast := applySaves_last s categoryId hkey [(t, v)] (List.cons_ne_nil _ _)
  have hw := debouncedWriteProgress_of_pending (applySaves s categoryId [(t, v)])
    categoryId _ hlast.1
  rw [hrun]
  exact loadProgress_of_stringified _ categoryId hkey v hw.2.1

/-- Witness for C10: a concrete saved value round-trips through storage. -/
theorem claim_C10_save_load_round_trip_witness :
    (loadProgress (runKeySaves ⟨fun _ => none, fun _ => none, fun _ => none, []⟩
          "animals" [(5, ⟨2, false, true⟩)]).storage "animals").1 =
      some (⟨2, false, true⟩ : LessonProgress) :=
  claim_C10_save_load_round_trip "animals" (by decide)
    ⟨fun _ => none, fun _ => none, fun _ => none, []⟩ rfl 5 ⟨2, false, true⟩

/-- Storage holding, under the animals progress key, the empty string: a
stored value JSON.parse rejects. -/
def corruptEmptyStorage : Storage :=
  fun k => if k = "progress:animals" then some (.rawText "") else none

/-- Counterexample to C7: the empty string stored under a progress key is
malformed (it fails to parse), and loadProgress indeed returns none for it,
but the corrupt entry is not removed from storage: the falsiness guard on the
stored string returns before the removal paths are reached. -/
theorem claim_C7_counterexample :
    parseJson (StoredString.rawText "") = none ∧
      (loadProgress corruptEmptyStorage "animals").1 = none ∧
      (loadProgress corruptEmptyStorage "animals").2 "progress:animals" =
        some (StoredString.rawText "") := by
  refine ⟨rfl, rfl, rfl⟩

/-- C7 as amended: for a non-empty categoryId whose stored entry is a
non-empty string that is malformed (either failing JSON.parse or failing the
field validation), loadProgress returns none and removes the corrupt entry;
an empty stored string is treated as absent but is left in place. -/
theorem claim_C7_amended_corrupt_removed :
    (∀ (storage : Storage) (categoryId : String) (sv : StoredString),
        categoryId ≠ "" →
        storage ("progress:" ++ categoryId) = some sv →
        isEmptyStored sv = false →
        decodeStoredProgress sv = none →
        (loadProgress storage categoryId).1 = none ∧
          (loadProgress storage categoryId).2 ("progress:" ++ categoryId) = none) ∧
      (∀ (storage : Storage) (categoryId : String),
        categoryId ≠ "" →
        storage ("progress:" ++ categoryId) = some (.rawText "") →
        loadProgress storage categoryId = (none, storage)) := by
  constructor
  · intro storage categoryId sv hkey hst hnempty hbad
    unfold loadProgress
    rw [if_neg hkey]
    dsimp only
    rw [hst]
    dsimp only
    rw [if_neg (by rw [hnempty]; simp), hbad]
    exact ⟨rfl, by simp [removeItem]⟩
  · intro storage categoryId hkey hst
    unfold loadProgress
    rw [if_neg hkey]
    dsimp only
    rw [hst]
    dsimp only
    rw [if_pos (show isEmptyStored (StoredString.rawText "") = true from rfl)]

/-- Witness for the amended C7: a non-empty unparseable stored string is
discarded and its entry removed, and an empty stored string is treated as
absent and kept. -/
theorem claim_C7_amended_corrupt_removed_witness :
    ((loadProgress (fun k => if k = "progress:animals"
          then some (.rawText "oops") else none) "animals").1 = none ∧
      (loadProgress (fun k => if k = "progress:animals"
          then some (.rawText "oops") else none) "animals").2 "progress:animals" = none) ∧
      loadProgress corruptEmptyStorage "animals" = (none, corruptEmptyStorage) :=
  ⟨claim_C7_amended_corrupt_removed.1
      (fun k => if k = "progress:animals" then some (.rawText "oops") else none)
      "animals" (.rawText "oops") (by decide) rfl rfl rfl,
    claim_C7_amended_corrupt_removed.2 corruptEmptyStorage "animals" (by decide) rfl⟩

/-- Counterexample to C8: the stored string with numeric value 2 is outside
the range 0 to 1, yet the settings panel loader loadNumberFromStorage returns
2 rather than the default 0.12: it performs no range check, unlike the camera
feed initializer which falls back to the default on the same input. -/
theorem claim_C8_counterexample :
    loadNumberFromStorage (some (SensitivityString.numPrefix 2))
        DEFAULT_GESTURE_SENSITIVITY = 2 ∧
      ¬ ((2 : ℚ) ≤ 1) ∧
      loadNumberFromStorage (some (SensitivityString.numPrefix 2))
          DEFAULT_GESTURE_SENSITIVITY ≠ DEFAULT_GESTURE_SENSITIVITY ∧
      numericSensitivityInit (some (SensitivityString.numPrefix 2)) =
        DEFAULT_GESTURE_SENSITIVITY := by
  refine ⟨rfl, by norm_num, ?_, ?_⟩
  · rw [show loadNumberFromStorage (some (SensitivityString.numPrefix 2))
        DEFAULT_GESTURE_SENSITIVITY = 2 from rfl]
    norm_num [DEFAULT_GESTURE_SENSITIVITY]
  · unfold numericSensitivityInit parseFloatValue
    dsimp only
    rw [if_neg (by norm_num)]

/-- C8 as amended: the camera feed initializer always yields a value in the
closed range 0 to 1, returning the default 0.12 exactly when the stored
string is absent, unparseable, or parses outside the range; the settings
panel loader loadNumberFromStorage, in contrast, defaults only on absent or
unparseable strings and returns any parseable number unchanged, even outside
the range. -/
theorem claim_C8_amended_sensitivity_loaders :
    (∀ stored, 0 ≤ numericSensitivityInit stored ∧ numericSensitivityInit stored ≤ 1) ∧
      numericSensitivityInit none = DEFAULT_GESTURE_SENSITIVITY ∧
      (∀ s, numericSensitivityInit (some (.nonNumeric s)) = DEFAULT_GESTURE_SENSITIVITY) ∧
      (∀ q, ¬ (0 ≤ q ∧ q ≤ 1) →
        numericSensitivityInit (some (.numPrefix q)) = DEFAULT_GESTURE_SENSITIVITY) ∧
      (∀ q, 0 ≤ q → q ≤ 1 → numericSensitivityInit (some (.numPrefix q)) = q) ∧
      (∀ q d, loadNumberFromStorage (some (.numPrefix q)) d = q) ∧
      (∀ d, loadNumberFromStorage none d = d) ∧
      (∀ s d, loadNumberFromStorage (some (.nonNumeric s)) d = d) := by
  refine ⟨?_, rfl, fun s => rfl, ?_, ?_, fun q d => rfl, fun d => rfl, fun s d => rfl⟩
  · intro stored
    match stored with
    | none => exact ⟨by norm_num [numericSensitivityInit, DEFAULT_GESTURE_SENSITIVITY],
        by norm_num [numericSensitivityInit, DEFAULT_GESTURE_SENSITIVITY]⟩
    | some (.nonNumeric s) =>
      exact ⟨by norm_num [numericSensitivityInit, parseFloatValue, DEFAULT_GESTURE_SENSITIVITY],
        by norm_num [numericSensitivityInit, parseFloatValue, DEFAULT_GESTURE_SENSITIVITY]⟩
    | some (.numPrefix q) =>
      unfold numericSensitivityInit parseFloatValue
      dsimp only
      split_ifs with hq
      · exact ⟨hq.1, hq.2⟩
      · exact ⟨by norm_num [DEFAULT_GESTURE_SENSITIVITY],
          by norm_num [DEFAULT_GESTURE_SENSITIVITY]⟩
  · intro q hq
    unfold numericSensitivityInit parseFloatValue
    dsimp only
    rw [if_neg hq]
  · intro q h0 h1
    unfold numericSensitivityInit parseFloatValue
    dsimp only
    rw [if_pos ⟨h0, h1⟩]

/-- Witness for the amended C8: at the out-of-range stored value 2 the camera
feed initializer falls back to the default while the settings loader keeps 2,
and at the in-range stored value one half both return the stored value. -/
theorem claim_C8_amended_sensitivity_loaders_witness :
    numericSensitivityInit (some (.numPrefix 2)) = DEFAULT_GESTURE_SENSITIVITY ∧
      loadNumberFromStorage (some (.numPrefix 2)) DEFAULT_GESTURE_SENSITIVITY = 2 ∧
      numericSensitivityInit (some (.numPrefix (1 / 2))) = 1 / 2 ∧
      (0 ≤ numericSensitivityInit (some (.numPrefix 2)) ∧
        numericSensitivityInit (some (.numPrefix 2)) ≤ 1) :=
  ⟨claim_C8_amended_sensitivity_loaders.2.2.2.1 2 (by norm_num),
    claim_C8_amended_sensitivity_loaders.2.2.2.2.2.1 2 DEFAULT_GESTURE_SENSITIVITY,
    claim_C8_amended_sensitivity_loaders.2.2.2.2.1 (1 / 2) (by norm_num) (by norm_num),
    claim_C8_amended_sensitivity_loaders.1 (some (.numPrefix 2))⟩
